import Mathlib

/-
Shallow embedding of src/resources/cli_args.c (CLI argument parsing and
validation library).

Machine model (documented assumptions, matching a standard LP64 Unix
target with the default type macros of cli_args.h):
  - CLIPAR_CHAR   = char            (ASCII, C locale)
  - CLIPAR_BOOL   = bool
  - CLIPAR_INT    = int             (32-bit two's complement)
  - CLIPAR_UINT   = unsigned int    (32-bit)
  - CLIPAR_UINT32 = uint32_t, CLIPAR_UINT64 = uint64_t
  - CLIPAR_ULONG  = unsigned long   (64-bit); long and long long are 64-bit
  - CLIPAR_SIZE_T = size_t          (64-bit)

C strings are modelled as `List Char`; a nullable `const char *` argument
is `Option (List Char)` (`none` = NULL).  An output pointer together with
the value stored in its target is modelled as `Option α` (`none` = NULL
pointer, `some v` = non-null pointer whose target currently holds `v`);
each parser returns the pair (boolean result, final state of the output
target), so "nothing written" is expressed as returning the state
unchanged.

The C numeric conversion routines are modelled after ISO C semantics:
strtoul/strtoull/strtol saturate at the extremal representable value on
overflow (the code never inspects errno, so the saturated value is what
the surrounding parser sees).  strtof is modelled by `strtofModel` below.
-/

abbrev Str := List Char

/-- Model of `isdigit` (C locale): ASCII decimal digit. -/
def isDigitC (c : Char) : Bool := '0' ≤ c && c ≤ '9'

/-- The hex-digit character test inlined in `is_hex_digits`. -/
def isHexDigitC (c : Char) : Bool :=
  ('0' ≤ c && c ≤ '9') || ('a' ≤ c && c ≤ 'f') || ('A' ≤ c && c ≤ 'F')

/-- Model of `isspace` (C locale), used by strtof for leading whitespace. -/
def isSpaceC (c : Char) : Bool :=
  c = ' ' || c = '\t' || c = '\n' || c = '\x0b' || c = '\x0c' || c = '\r'

/-- Embeds `is_digits` from cli_args.c: non-empty and every character an
ASCII digit.  (The C function also returns false on a NULL pointer; within
the library it is only ever called on non-null strings, which is the case
this definition models.) -/
def is_digits (s : Str) : Bool :=
  match s with
  | [] => false
  | _ :: _ => s.all isDigitC

/-- Embeds `is_valid_int` from cli_args.c: optional single '+' or '-' sign
followed by a non-empty digit string. -/
def is_valid_int (s : Str) : Bool :=
  match s with
  | [] => false
  | c :: rest => if c = '-' ∨ c = '+' then is_digits rest else is_digits (c :: rest)

/-- Embeds `is_hex_digits` from cli_args.c: non-empty and every character a
hexadecimal digit. -/
def is_hex_digits (s : Str) : Bool :=
  match s with
  | [] => false
  | _ :: _ => s.all isHexDigitC

/-- ASCII upper-to-lower folding as done character-wise inside `iequals`. -/
def foldLower (c : Char) : Char :=
  if 'A' ≤ c ∧ c ≤ 'Z' then Char.ofNat (c.toNat + 32) else c

/-- Embeds `iequals` from cli_args.c: case-insensitive (ASCII) string
equality, walking both strings and requiring both to end together. -/
def iequals : Str → Str → Bool
  | c1 :: r1, c2 :: r2 => foldLower c1 = foldLower c2 && iequals r1 r2
  | [], [] => true
  | _, _ => false

/-- Numeric value of a decimal digit string (most significant digit first),
the mathematical value computed by strtol/strtoul on an all-digit input
before any overflow clamping. -/
def decValue (s : Str) : Nat :=
  s.foldl (fun a c => a * 10 + (c.toNat - 48)) 0

/-- Numeric value of a hex digit string (most significant digit first). -/
def hexCharVal (c : Char) : Nat :=
  if '0' ≤ c ∧ c ≤ '9' then c.toNat - 48
  else if 'a' ≤ c ∧ c ≤ 'f' then c.toNat - 87
  else c.toNat - 55

def hexValue (s : Str) : Nat :=
  s.foldl (fun a c => a * 16 + hexCharVal c) 0

/-- Model of `strtoul` / `strtoull` (base 10) applied to an all-digit
string, on an LP64 target where both unsigned long and unsigned long long
are 64-bit: the exact value, saturated to ULONG_MAX = ULLONG_MAX = 2^64-1
on overflow (the C code never checks errno).  Because the input has
already passed `is_digits`, the conversion consumes the whole string, so
the endptr check in the callers always passes. -/
def strtoulVal (s : Str) : Nat := min (decValue s) (2 ^ 64 - 1)

/-- Model of `strtoul` with base 16 applied to an all-hex-digit string:
exact value saturated to 2^64-1 on overflow.  As above, the string is
fully consumed. -/
def strtoulHexVal (s : Str) : Nat := min (hexValue s) (2 ^ 64 - 1)

/-- Model of `strtol` (base 10) applied to a string accepted by
`is_valid_int` (optional sign, then digits): exact value saturated to
LONG_MIN = -2^63 / LONG_MAX = 2^63-1 on overflow. -/
def strtolVal (s : Str) : Int :=
  match s with
  | [] => 0
  | c :: rest =>
    if c = '-' then max (-(decValue rest : Int)) (-(2 ^ 63))
    else if c = '+' then min ((decValue rest : Int)) (2 ^ 63 - 1)
    else min ((decValue (c :: rest) : Int)) (2 ^ 63 - 1)

/-- Model of `strtol` (base 10) applied to an all-digit (unsigned) string,
as used on the IPv4 octet and netmask substrings: exact value saturated to
LONG_MAX = 2^63-1. -/
def strtolNonneg (s : Str) : Nat := min (decValue s) (2 ^ 63 - 1)

/-- The C cast `(CLIPAR_INT)val` from 64-bit long to 32-bit int, modelled
as two's-complement wrapping (gcc/clang behavior).  In the library it is
only reached with `val` already inside the int range, where it is the
identity. -/
def wrap32 (z : Int) : Int := (z + 2 ^ 31) % 2 ^ 32 - 2 ^ 31

/-- Embeds `parse_uint32_in_range` from cli_args.c. -/
def parse_uint32_in_range (arg : Option Str) (mn mx : Nat) (st : Option Nat) :
    Bool × Option Nat :=
  match arg with
  | none => (false, st)
  | some s =>
    if s = [] then (false, st)
    else if !is_digits s then (false, st)
    else
      let val := strtoulVal s
      if val < mn ∨ val > mx then (false, st)
      else (true, st.map (fun _ => val % 2 ^ 32))

/-- Embeds `parse_uint64_in_range` from cli_args.c.  The cast
`(CLIPAR_UINT64)val` from unsigned long long is the identity. -/
def parse_uint64_in_range (arg : Option Str) (mn mx : Nat) (st : Option Nat) :
    Bool × Option Nat :=
  match arg with
  | none => (false, st)
  | some s =>
    if s = [] then (false, st)
    else if !is_digits s then (false, st)
    else
      let val := strtoulVal s
      if val < mn ∨ val > mx then (false, st)
      else (true, st.map (fun _ => val))

/-- Embeds `parse_int_in_range` from cli_args.c. -/
def parse_int_in_range (arg : Option Str) (mn mx : Int) (st : Option Int) :
    Bool × Option Int :=
  match arg with
  | none => (false, st)
  | some s =>
    if s = [] then (false, st)
    else if !is_valid_int s then (false, st)
    else
      let val := strtolVal s
      if val < mn ∨ val > mx then (false, st)
      else (true, st.map (fun _ => wrap32 val))

/-- The scanning loop of `parse_string_option`: `i` is the loop counter.
`strcmp == 0` is byte-for-byte equality; the store `(CLIPAR_UINT)i`
truncates the 64-bit size_t counter to 32-bit unsigned int. -/
def optLoop (arg : Str) : List Str → Nat → Option Nat → Bool × Option Nat
  | [], _, st => (false, st)
  | o :: rest, i, st =>
    if arg = o then (true, st.map (fun _ => i % 2 ^ 32))
    else optLoop arg rest (i + 1) st

/-- Embeds `parse_string_option` from cli_args.c.  The option table is the
list of (non-null) strings `options[0..num_options)`. -/
def parse_string_option (arg : Option Str) (options : List Str) (st : Option Nat) :
    Bool × Option Nat :=
  match arg with
  | none => (false, st)
  | some s => optLoop s options 0 st

/-- Splitting a string at every '.' character, keeping empty pieces: the
underlying decomposition from which strtok's token sequence is obtained. -/
def splitDot : Str → List Str
  | [] => [[]]
  | c :: rest =>
    if c = '.' then [] :: splitDot rest
    else
      match splitDot rest with
      | [] => [[c]]
      | t :: ts => (c :: t) :: ts

/-- Embeds `parse_ip_address` from cli_args.c.  `strtok(ip_copy, ".")`
yields exactly the non-empty maximal runs of non-'.' characters, i.e.
`(splitDot s).filter (· ≠ [])` in order; the loop accepts iff every token
is all-digits with numeric value in [0,255] and exactly 4 tokens were
produced.  Octet values go through strtol (tokens have at most 15 digits,
far below the saturation threshold). -/
def parse_ip_address (arg : Option Str) : Bool :=
  match arg with
  | none => false
  | some s =>
    if s = [] then false
    else if s.length > 15 then false
    else
      let toks := (splitDot s).filter (fun t => t ≠ [])
      toks.all (fun t => is_digits t && strtolNonneg t ≤ 255) && toks.length = 4

/-- Embeds `parse_ip_address_with_netmask` from cli_args.c.  `strchr`
locates the first '/'; the part before it must be a valid IPv4 address of
length 1..15 and the part after it a non-empty digit string whose value is
at most 32 (the `netmask < 0` test is vacuous on a digit string, and the
endptr test always passes after `is_digits`). -/
def parse_ip_address_with_netmask (arg : Option Str) : Bool :=
  match arg with
  | none => false
  | some s =>
    if s = [] then false
    else
      let ipPart := s.takeWhile (fun c => c ≠ '/')
      if ipPart.length = s.length then false
      else
        let nmPart := s.drop (ipPart.length + 1)
        if ipPart.length = 0 ∨ ipPart.length > 15 then false
        else if !parse_ip_address (some ipPart) then false
        else if nmPart = [] then false
        else if !is_digits nmPart then false
        else if strtolNonneg nmPart > 32 then false
        else true

/-- Embeds `parse_bool` from cli_args.c. -/
def parse_bool (arg : Option Str) (st : Option Bool) : Bool × Option Bool :=
  match arg with
  | none => (false, st)
  | some s =>
    if iequals s ['t', 'r', 'u', 'e'] || iequals s ['1'] || iequals s ['y', 'e', 's'] then
      (true, st.map (fun _ => true))
    else if iequals s ['f', 'a', 'l', 's', 'e'] || iequals s ['0'] || iequals s ['n', 'o'] then
      (true, st.map (fun _ => false))
    else (false, st)

/-- Stripping the optional "0x"/"0X" marker at the start of the hex
argument, exactly the pointer adjustment in `parse_hex_in_range`
(`arg[1]` reads the terminating NUL when the string has length 1, so a
lone "0" is never stripped). -/
def stripHexMark (s : Str) : Str :=
  match s with
  | c0 :: c1 :: rest =>
    if c0 = '0' ∧ (c1 = 'x' ∨ c1 = 'X') then rest else c0 :: c1 :: rest
  | _ => s

/-- Embeds `parse_hex_in_range` from cli_args.c.  After `is_hex_digits`
passes, the string handed to strtoul contains no 'x', so strtoul's own
prefix handling never triggers and the whole string is consumed. -/
def parse_hex_in_range (arg : Option Str) (mn mx : Nat) (st : Option Nat) :
    Bool × Option Nat :=
  match arg with
  | none => (false, st)
  | some s =>
    if s = [] then (false, st)
    else
      let s2 := stripHexMark s
      if !is_hex_digits s2 then (false, st)
      else
        let val := strtoulHexVal s2
        if val < mn ∨ val > mx then (false, st)
        else (true, st.map (fun _ => val))

/-- Value domain of CLIPAR_FLOAT for the purposes of this development: an
IEEE-754 float is NaN, an infinity, or a finite value.  Finite values are
carried exactly as rationals; rounding of decimal literals to binary32 is
not modelled, which is irrelevant to the claims settled here (none depends
on the exact finite value produced by strtof, only on NaN-ness and on
order facts that survive rounding monotonicity trivially because the
bounds are universally quantified or concrete). -/
inductive CFloat where
  | nan : CFloat
  | posInf : CFloat
  | negInf : CFloat
  | finite : ℚ → CFloat
deriving DecidableEq

/-- The C `<` comparison on floats: false whenever either side is NaN,
otherwise the usual order with -inf below all finite values below +inf. -/
def fltLt : CFloat → CFloat → Bool
  | .nan, _ => false
  | _, .nan => false
  | .negInf, .negInf => false
  | .negInf, _ => true
  | _, .negInf => false
  | .posInf, _ => false
  | .finite _, .posInf => true
  | .finite a, .finite b => decide (a < b)

/-- Significand part of the C strtof grammar: `digits [ '.' [digits] ]` or
`'.' digits`, at least one digit in total.  Returns the value and the
number of characters consumed, or `none` when no valid significand starts
here. -/
def parseMantissa (s : Str) : Option (ℚ × Nat) :=
  let ip := s.takeWhile isDigitC
  let rest := s.drop ip.length
  match rest with
  | c :: rest2 =>
    if c = '.' then
      let fp := rest2.takeWhile isDigitC
      if ip.length = 0 ∧ fp.length = 0 then none
      else some ((decValue ip : ℚ) + (decValue fp : ℚ) / ((10 : ℚ) ^ fp.length),
                 ip.length + 1 + fp.length)
    else if ip.length = 0 then none
    else some ((decValue ip : ℚ), ip.length)
  | [] =>
    if ip.length = 0 then none
    else some ((decValue ip : ℚ), ip.length)

/-- Optional exponent part of the strtof grammar: `e`/`E`, optional sign,
digits.  Consumed only when at least one digit follows (longest-valid-
prefix rule); returns (exponent, characters consumed). -/
def parseExpPart (s : Str) : Int × Nat :=
  match s with
  | c :: rest =>
    if c = 'e' ∨ c = 'E' then
      match rest with
      | sc :: rest2 =>
        if sc = '+' ∨ sc = '-' then
          let ds := rest2.takeWhile isDigitC
          if ds.length = 0 then (0, 0)
          else ((if sc = '-' then -(decValue ds : Int) else (decValue ds : Int)),
                2 + ds.length)
        else
          let ds := rest.takeWhile isDigitC
          if ds.length = 0 then (0, 0)
          else ((decValue ds : Int), 1 + ds.length)
      | [] => (0, 0)
    else (0, 0)
  | [] => (0, 0)

/-- Ten to an integer power, as a rational. -/
def qpow10 (e : Int) : ℚ :=
  if 0 ≤ e then (10 : ℚ) ^ e.toNat else 1 / (10 : ℚ) ^ (-e).toNat

/-- Case-insensitive "does s start with pat" (pat given in lowercase), the
comparison strtof performs for the inf/infinity/nan keywords. -/
def startsWithCI (s pat : Str) : Bool := iequals (s.take pat.length) pat

/-- Model of C `strtof(s, &endptr)`: returns the parsed value and the
number of characters consumed (0 when no conversion is performed, per the
C standard).  Covers leading whitespace, an optional sign, the decimal
significand/exponent grammar, and the case-insensitive `inf`, `infinity`
and `nan` keywords.  The C16 hexadecimal-float form `0x...` and the
`nan(char-seq)` form are not modelled; no claim settled in this file
involves such inputs.  Finite results are exact rationals (binary32
rounding and ERANGE saturation not modelled, see `CFloat`). -/
def strtofModel (s : Str) : CFloat × Nat :=
  let ws := (s.takeWhile isSpaceC).length
  let s1 := s.drop ws
  let sgn : Bool × Nat × Str :=
    match s1 with
    | c :: r =>
      if c = '-' then (true, 1, r)
      else if c = '+' then (false, 1, r)
      else (false, 0, s1)
    | [] => (false, 0, s1)
  let neg := sgn.1
  let sl := sgn.2.1
  let s2 := sgn.2.2
  match parseMantissa s2 with
  | some m =>
    let e := parseExpPart (s2.drop m.2)
    let q := (if neg then -m.1 else m.1) * qpow10 e.1
    (CFloat.finite q, ws + sl + m.2 + e.2)
  | none =>
    if startsWithCI s2 ['i', 'n', 'f', 'i', 'n', 'i', 't', 'y'] then
      ((if neg then CFloat.negInf else CFloat.posInf), ws + sl + 8)
    else if startsWithCI s2 ['i', 'n', 'f'] then
      ((if neg then CFloat.negInf else CFloat.posInf), ws + sl + 3)
    else if startsWithCI s2 ['n', 'a', 'n'] then
      (CFloat.nan, ws + sl + 3)
    else (CFloat.finite 0, 0)

/-- Embeds `parse_float_in_range` from cli_args.c.  `*endptr != '\0'` is
exactly "strtof consumed fewer characters than the string has". -/
def parse_float_in_range (arg : Option Str) (mn mx : CFloat) (st : Option CFloat) :
    Bool × Option CFloat :=
  match arg with
  | none => (false, st)
  | some s =>
    if s = [] then (false, st)
    else
      let v := strtofModel s
      if v.2 ≠ s.length then (false, st)
      else if fltLt v.1 mn || fltLt mx v.1 then (false, st)
      else (true, st.map (fun _ => v.1))

/-- Canonical decimal rendering of a natural number (no leading zeros,
"0" for zero), used to state the format/parse round-trip claim. -/
def natRender (v : Nat) : Str :=
  if _h : v < 10 then [Nat.digitChar v]
  else natRender (v / 10) ++ [Nat.digitChar (v % 10)]
termination_by v
decreasing_by exact Nat.div_lt_self (by omega) (by omega)

/-- Canonical decimal rendering of an integer: a '-' sign for negative
values, no sign otherwise. -/
def intRender (v : Int) : Str :=
  if v < 0 then '-' :: natRender v.natAbs else natRender v.toNat

/-- Modelled from the claim wording of C1 (the spec's description of
`parse_ip_address`): at most 15 characters, splitting on '.' yields
exactly 4 tokens, all non-empty, all-digit, each with value in [0,255].
This is the spec-side definition compared against the source-side
`parse_ip_address`. -/
def ip_claim_ok (s : Str) : Bool :=
  s.length ≤ 15 &&
    (let toks := splitDot s
     toks.length = 4 &&
       toks.all (fun t => t ≠ [] && t.all isDigitC && decValue t ≤ 255))

/-- Spec-side notion for C9: index of the first entry of the option table
equal to the argument, if any. -/
def first_match_index (s : Str) : List Str → Option Nat
  | [] => none
  | o :: rest => if s = o then some 0 else (first_match_index s rest).map (· + 1)

/-
Helper lemmas.
-/

lemma decValue_snoc (xs : Str) (c : Char) :
    decValue (xs ++ [c]) = decValue xs * 10 + (c.toNat - 48) := by
  simp [decValue, List.foldl_append]

lemma digitChar_isDigit (d : Nat) (h : d < 10) : isDigitC (Nat.digitChar d) = true := by
  interval_cases d <;> decide

lemma digitChar_toNat (d : Nat) (h : d < 10) : (Nat.digitChar d).toNat - 48 = d := by
  interval_cases d <;> decide

lemma natRender_spec (v : Nat) :
    natRender v ≠ [] ∧ (natRender v).all isDigitC = true ∧ decValue (natRender v) = v := by
  induction v using Nat.strong_induction_on with
  | _ v ih =>
    unfold natRender
    split
    · next h =>
      refine ⟨by simp, ?_, ?_⟩
      · simp [digitChar_isDigit v h]
      · simp [decValue, digitChar_toNat v h]
    · next h =>
      have hlt : v / 10 < v := Nat.div_lt_self (by omega) (by omega)
      obtain ⟨h1, h2, h3⟩ := ih (v / 10) hlt
      have hm : v % 10 < 10 := Nat.mod_lt _ (by omega)
      refine ⟨by simp, ?_, ?_⟩
      · simp [List.all_append, h2, digitChar_isDigit _ hm]
      · rw [decValue_snoc, h3, digitChar_toNat _ hm]
        omega

lemma is_digits_natRender (v : Nat) : is_digits (natRender v) = true := by
  obtain ⟨h1, h2, -⟩ := natRender_spec v
  cases h : natRender v with
  | nil => exact absurd h h1
  | cons c cs => rw [h] at h2; simpa [is_digits] using h2

lemma is_valid_int_of_digits (s : Str) (h : is_digits s = true) : is_valid_int s = true := by
  cases s with
  | nil => simp [is_digits] at h
  | cons c rest =>
    have hc : isDigitC c = true := by
      simp [is_digits] at h; exact h.1
    have h1 : ¬(c = '-' ∨ c = '+') := by
      rintro (rfl | rfl) <;> exact absurd hc (by decide)
    simpa [is_valid_int, h1] using h

lemma strtolVal_digits (s : Str) (h : is_digits s = true) :
    strtolVal s = min ((decValue s : Int)) (2 ^ 63 - 1) := by
  cases s with
  | nil => simp [is_digits] at h
  | cons c rest =>
    have hc : isDigitC c = true := by
      simp [is_digits] at h; exact h.1
    have h1 : ¬ c = '-' := by rintro rfl; exact absurd hc (by decide)
    have h2 : ¬ c = '+' := by rintro rfl; exact absurd hc (by decide)
    simp [strtolVal, h1, h2]

lemma optLoop_eq (s : Str) (opts : List Str) (i : Nat) (st : Option Nat) :
    optLoop s opts i st =
      match first_match_index s opts with
      | none => (false, st)
      | some k => (true, st.map (fun _ => (i + k) % 2 ^ 32)) := by
  induction opts generalizing i with
  | nil => rfl
  | cons o rest ih =>
    by_cases h : s = o
    · simp [optLoop, first_match_index, h]
    · simp only [optLoop, first_match_index, if_neg h, ih (i + 1)]
      cases first_match_index s rest with
      | none => rfl
      | some k => simp [show i + 1 + k = i + (k + 1) from by omega]

lemma first_match_index_mem (s : Str) (opts : List Str) :
    (first_match_index s opts).isSome = true ↔ s ∈ opts := by
  induction opts with
  | nil => simp [first_match_index]
  | cons o rest ih =>
    by_cases h : s = o
    · simp [first_match_index, h]
    · simp [first_match_index, h, ih]

lemma first_match_index_spec (s : Str) (opts : List Str) (k : Nat)
    (h : first_match_index s opts = some k) :
    k < opts.length ∧ opts.getD k [] = s ∧ ∀ j, j < k → opts.getD j [] ≠ s := by
  induction opts generalizing k with
  | nil => simp [first_match_index] at h
  | cons o rest ih =>
    by_cases hs : s = o
    · simp [first_match_index, hs] at h
      subst hs
      rw [← h]
      refine ⟨by simp, by simp, ?_⟩
      intro j hj
      omega
    · simp [first_match_index, hs] at h
      obtain ⟨k', hk', rfl⟩ := h
      obtain ⟨ha, hb, hc⟩ := ih k' hk'
      refine ⟨by simpa using ha, by simpa using hb, ?_⟩
      intro j hj
      cases j with
      | zero => simpa using Ne.symm hs
      | succ j' => simpa using hc j' (by omega)

lemma parse_string_option_succeeds_iff (s : Str) (opts : List Str) (st : Option Nat) :
    (parse_string_option (some s) opts st).1 = true ↔ s ∈ opts := by
  show (optLoop s opts 0 st).1 = true ↔ s ∈ opts
  rw [optLoop_eq]
  rw [← first_match_index_mem]
  cases first_match_index s opts <;> simp

lemma rat_lt_vacuous (a b q : ℚ) (h : b < a) : q < a ∨ b < q := by
  rcases lt_or_le q a with h' | h'
  · exact Or.inl h'
  · exact Or.inr (lt_of_lt_of_le h h')

lemma fltLt_vacuous (mn mx v : CFloat) (h : fltLt mx mn = true) (hv : v ≠ CFloat.nan) :
    (fltLt v mn || fltLt mx v) = true := by
  cases mn <;> cases mx <;> cases v <;> simp_all [fltLt]
  exact rat_lt_vacuous _ _ _ h

/-
Claim theorems.
-/

/-- C1: the claim says parse_ip_address succeeds iff the string is at most
15 characters and splits on '.' into exactly 4 non-empty all-digit tokens
in [0,255] (formalised by ip_claim_ok, built from the claim's words).  The
code violates it: strtok collapses consecutive (and leading/trailing)
dots, so "1..2.3.4" and "1.2.3.4." — which have an empty token and hence
must fail per the claim — are both accepted.  This contradicts the
function's own documentation ("must be in the format X.X.X.X"). -/
theorem C1_ip_address_strtok_divergence :
    parse_ip_address (some ['1', '.', '.', '2', '.', '3', '.', '4']) = true ∧
    ip_claim_ok ['1', '.', '.', '2', '.', '3', '.', '4'] = false ∧
    parse_ip_address (some ['1', '.', '2', '.', '3', '.', '4', '.']) = true ∧
    ip_claim_ok ['1', '.', '2', '.', '3', '.', '4', '.'] = false := by
  decide

/-- C4: the claim says every all-digit numeral beyond 2^64-1 fails
parse_uint64_in_range for all bounds.  The code violates it: strtoull
saturates to ULLONG_MAX without the code checking errno, so the numeral
for 2^64 (here shown to have decimal value 2^64) is accepted with bounds
[0, 2^64-1] and the wrong value 2^64-1 is stored. -/
theorem C4_uint64_overflow_divergence :
    decValue ['1', '8', '4', '4', '6', '7', '4', '4', '0', '7', '3', '7',
              '0', '9', '5', '5', '1', '6', '1', '6'] = 2 ^ 64 ∧
    parse_uint64_in_range
        (some ['1', '8', '4', '4', '6', '7', '4', '4', '0', '7', '3', '7',
               '0', '9', '5', '5', '1', '6', '1', '6'])
        0 (2 ^ 64 - 1) (some 5) = (true, some (2 ^ 64 - 1)) := by
  decide

/-- C3 counterexample: contrary to the claim that "123abc" fails every
numeric parser regardless of range, parse_hex_in_range accepts it (all six
characters are hex digits) and stores 0x123abc = 1194684. -/
theorem C3_counterexample_hex_accepts_123abc :
    parse_hex_in_range (some ['1', '2', '3', 'a', 'b', 'c']) 0 (2 ^ 64 - 1) (some 0) =
      (true, some 1194684) := by
  decide

/-- C5 counterexample: contrary to the claim that every parser fails on
the empty argument for every option table, parse_string_option (which has
no empty-argument guard) succeeds on the empty string when the table
contains the empty string. -/
theorem C5_counterexample_empty_option_entry :
    parse_string_option (some []) [[]] (some 3) = (true, some 0) := by
  decide

/-- C6 counterexample: contrary to the claim that min > max makes every
range parser fail on every input, parse_float_in_range with the vacuous
bounds min = 1, max = 0 (the first conjunct shows max < min) accepts
"nan", because both range comparisons on NaN are false, and stores NaN. -/
theorem C6_counterexample_nan_vacuous_range :
    fltLt (CFloat.finite 0) (CFloat.finite 1) = true ∧
    parse_float_in_range (some ['n', 'a', 'n']) (CFloat.finite 1) (CFloat.finite 0)
        (some (CFloat.finite 0)) = (true, some CFloat.nan) := by
  decide

/-- C9 counterexample: contrary to the claim that the reported index is
the smallest matching position, the index is stored through a 32-bit
unsigned slot: with 2^32 copies of "a" followed by "b", looking up "b"
succeeds but reports index (2^32) mod 2^32 = 0, whose entry is "a" ≠ "b". -/
theorem C9_counterexample_index_truncation :
    parse_string_option (some ['b']) (List.replicate (2 ^ 32) ['a'] ++ [['b']]) (some 7) =
      (true, some 0) ∧
    (List.replicate (2 ^ 32) ['a'] ++ [['b']]).getD 0 [] = ['a'] ∧
    (['a'] : Str) ≠ ['b'] := by
  refine ⟨?_, ?_, by decide⟩
  · show optLoop ['b'] (List.replicate (2 ^ 32) ['a'] ++ [['b']]) 0 (some 7) = (true, some 0)
    have hrep : ∀ (n : Nat) (i : Nat),
        optLoop ['b'] (List.replicate n ['a'] ++ [['b']]) i (some 7) =
          (true, some ((i + n) % 2 ^ 32)) := by
      intro n
      induction n with
      | zero => intro i; simp [optLoop]
      | succ m ih =>
        intro i
        rw [List.replicate_succ]
        show optLoop ['b'] (['a'] :: (List.replicate m ['a'] ++ [['b']])) i (some 7) = _
        rw [show optLoop ['b'] (['a'] :: (List.replicate m ['a'] ++ [['b']])) i (some 7) =
            optLoop ['b'] (List.replicate m ['a'] ++ [['b']]) (i + 1) (some 7) from by
          simp [optLoop]]
        rw [ih (i + 1)]
        simp [show i + 1 + m = i + (m + 1) from by omega]
    rw [hrep (2 ^ 32) 0]
    norm_num
  · rw [show (2 : Nat) ^ 32 = (2 ^ 32 - 1) + 1 from by norm_num, List.replicate_succ]
    rfl

/-- C2: whenever an output-taking parser returns false, the output target
is exactly what it was before the call (nothing is written on failure);
one conjunct per parser, over all arguments, bounds/options and initial
target states. -/
theorem C2_failure_leaves_output_untouched :
    (∀ arg mn mx st, (parse_uint32_in_range arg mn mx st).1 = false →
        (parse_uint32_in_range arg mn mx st).2 = st) ∧
    (∀ arg mn mx st, (parse_uint64_in_range arg mn mx st).1 = false →
        (parse_uint64_in_range arg mn mx st).2 = st) ∧
    (∀ arg mn mx st, (parse_int_in_range arg mn mx st).1 = false →
        (parse_int_in_range arg mn mx st).2 = st) ∧
    (∀ arg mn mx st, (parse_float_in_range arg mn mx st).1 = false →
        (parse_float_in_range arg mn mx st).2 = st) ∧
    (∀ arg mn mx st, (parse_hex_in_range arg mn mx st).1 = false →
        (parse_hex_in_range arg mn mx st).2 = st) ∧
    (∀ arg st, (parse_bool arg st).1 = false → (parse_bool arg st).2 = st) ∧
    (∀ arg options st, (parse_string_option arg options st).1 = false →
        (parse_string_option arg options st).2 = st) := by
  refine ⟨?_, ?_, ?_, ?_, ?_, ?_, ?_⟩
  · intro arg mn mx st h
    cases arg with
    | none => rfl
    | some s =>
      simp only [parse_uint32_in_range] at h ⊢
      split_ifs at h ⊢ <;> simp_all
  · intro arg mn mx st h
    cases arg with
    | none => rfl
    | some s =>
      simp only [parse_uint64_in_range] at h ⊢
      split_ifs at h ⊢ <;> simp_all
  · intro arg mn mx st h
    cases arg with
    | none => rfl
    | some s =>
      simp only [parse_int_in_range] at h ⊢
      split_ifs at h ⊢ <;> simp_all
  · intro arg mn mx st h
    cases arg with
    | none => rfl
    | some s =>
      simp only [parse_float_in_range] at h ⊢
      split_ifs at h ⊢ <;> simp_all
  · intro arg mn mx st h
    cases arg with
    | none => rfl
    | some s =>
      simp only [parse_hex_in_range] at h ⊢
      split_ifs at h ⊢ <;> simp_all
  · intro arg st h
    cases arg with
    | none => rfl
    | some s =>
      simp only [parse_bool] at h ⊢
      split_ifs at h ⊢
      simp_all
  · intro arg options st h
    cases arg with
    | none => rfl
    | some s =>
      rw [show parse_string_option (some s) options st = optLoop s options 0 st from rfl,
        optLoop_eq] at h ⊢
      rcases hfm : first_match_index s options with _ | k
      · rfl
      · rw [hfm] at h
        simp at h

/-- C2 witness: concrete failing calls for each conjunct, with the output
target visibly preserved. -/
theorem C2_witness :
    (parse_uint32_in_range (some ['q']) 0 9 (some 7)).2 = some 7 ∧
    (parse_uint64_in_range (some ['q']) 0 9 (some 7)).2 = some 7 ∧
    (parse_int_in_range (some ['q']) 0 9 (some 7)).2 = some 7 ∧
    (parse_float_in_range (some ['q']) (CFloat.finite 0) (CFloat.finite 1)
        (some (CFloat.finite 5))).2 = some (CFloat.finite 5) ∧
    (parse_hex_in_range (some ['q']) 0 9 (some 7)).2 = some 7 ∧
    (parse_bool (some ['q']) (some true)).2 = some true ∧
    (parse_string_option (some ['q']) [] (some 7)).2 = some 7 :=
  ⟨C2_failure_leaves_output_untouched.1 (some ['q']) 0 9 (some 7) (by decide),
   C2_failure_leaves_output_untouched.2.1 (some ['q']) 0 9 (some 7) (by decide),
   C2_failure_leaves_output_untouched.2.2.1 (some ['q']) 0 9 (some 7) (by decide),
   C2_failure_leaves_output_untouched.2.2.2.1 (some ['q']) (CFloat.finite 0)
     (CFloat.finite 1) (some (CFloat.finite 5)) (by decide),
   C2_failure_leaves_output_untouched.2.2.2.2.1 (some ['q']) 0 9 (some 7) (by decide),
   C2_failure_leaves_output_untouched.2.2.2.2.2.1 (some ['q']) (some true) (by decide),
   C2_failure_leaves_output_untouched.2.2.2.2.2.2 (some ['q']) [] (some 7) (by decide)⟩

/-- C10: for every output-taking parser the boolean verdict does not
depend on the output slot at all; in particular a call with a non-null
slot and a call with the NULL output pointer (st = none) agree. -/
theorem C10_verdict_independent_of_output_slot :
    (∀ arg mn mx st1 st2, (parse_uint32_in_range arg mn mx st1).1 =
        (parse_uint32_in_range arg mn mx st2).1) ∧
    (∀ arg mn mx st1 st2, (parse_uint64_in_range arg mn mx st1).1 =
        (parse_uint64_in_range arg mn mx st2).1) ∧
    (∀ arg mn mx st1 st2, (parse_int_in_range arg mn mx st1).1 =
        (parse_int_in_range arg mn mx st2).1) ∧
    (∀ arg mn mx st1 st2, (parse_float_in_range arg mn mx st1).1 =
        (parse_float_in_range arg mn mx st2).1) ∧
    (∀ arg mn mx st1 st2, (parse_hex_in_range arg mn mx st1).1 =
        (parse_hex_in_range arg mn mx st2).1) ∧
    (∀ arg st1 st2, (parse_bool arg st1).1 = (parse_bool arg st2).1) ∧
    (∀ arg options st1 st2, (parse_string_option arg options st1).1 =
        (parse_string_option arg options st2).1) := by
  refine ⟨?_, ?_, ?_, ?_, ?_, ?_, ?_⟩
  · intro arg mn mx st1 st2
    cases arg with
    | none => rfl
    | some s =>
      simp only [parse_uint32_in_range]
      split_ifs <;> rfl
  · intro arg mn mx st1 st2
    cases arg with
    | none => rfl
    | some s =>
      simp only [parse_uint64_in_range]
      split_ifs <;> rfl
  · intro arg mn mx st1 st2
    cases arg with
    | none => rfl
    | some s =>
      simp only [parse_int_in_range]
      split_ifs <;> rfl
  · intro arg mn mx st1 st2
    cases arg with
    | none => rfl
    | some s =>
      simp only [parse_float_in_range]
      split_ifs <;> rfl
  · intro arg mn mx st1 st2
    cases arg with
    | none => rfl
    | some s =>
      simp only [parse_hex_in_range]
      split_ifs <;> rfl
  · intro arg st1 st2
    cases arg with
    | none => rfl
    | some s =>
      simp only [parse_bool]
      split_ifs <;> rfl
  · intro arg options st1 st2
    cases arg with
    | none => rfl
    | some s =>
      rw [show parse_string_option (some s) options st1 = optLoop s options 0 st1 from rfl,
        show parse_string_option (some s) options st2 = optLoop s options 0 st2 from rfl,
        optLoop_eq, optLoop_eq]
      cases first_match_index s options <;> rfl

/-- C3 amended: "123abc" fails the four decimal/float parsers
(parse_uint32_in_range, parse_uint64_in_range, parse_int_in_range,
parse_float_in_range) for every choice of bounds; parse_hex_in_range,
however, reads it as the hex numeral 0x123abc and succeeds exactly when
its value 1194684 lies within [min, max]. -/
theorem C3_amended_trailing_garbage :
    (∀ mn mx st, (parse_uint32_in_range (some ['1', '2', '3', 'a', 'b', 'c']) mn mx st).1
        = false) ∧
    (∀ mn mx st, (parse_uint64_in_range (some ['1', '2', '3', 'a', 'b', 'c']) mn mx st).1
        = false) ∧
    (∀ (mn mx : Int) st, (parse_int_in_range (some ['1', '2', '3', 'a', 'b', 'c']) mn mx st).1
        = false) ∧
    (∀ mn mx st, (parse_float_in_range (some ['1', '2', '3', 'a', 'b', 'c']) mn mx st).1
        = false) ∧
    (∀ mn mx st, ((parse_hex_in_range (some ['1', '2', '3', 'a', 'b', 'c']) mn mx st).1 = true
        ↔ mn ≤ 1194684 ∧ 1194684 ≤ mx)) := by
  have hne : (['1', '2', '3', 'a', 'b', 'c'] : Str) ≠ [] := by decide
  have hdig : is_digits ['1', '2', '3', 'a', 'b', 'c'] = false := by decide
  have hint : is_valid_int ['1', '2', '3', 'a', 'b', 'c'] = false := by decide
  refine ⟨?_, ?_, ?_, ?_, ?_⟩
  · intro mn mx st
    simp [parse_uint32_in_range, hne, hdig]
  · intro mn mx st
    simp [parse_uint64_in_range, hne, hdig]
  · intro mn mx st
    simp [parse_int_in_range, hne, hint]
  · intro mn mx st
    have hcons : (strtofModel ['1', '2', '3', 'a', 'b', 'c']).2 = 3 := by decide
    simp [parse_float_in_range, hne, hcons]
  · intro mn mx st
    have hstrip : stripHexMark ['1', '2', '3', 'a', 'b', 'c'] = ['1', '2', '3', 'a', 'b', 'c'] := by
      decide
    have hhex : is_hex_digits ['1', '2', '3', 'a', 'b', 'c'] = true := by decide
    have hval : strtoulHexVal ['1', '2', '3', 'a', 'b', 'c'] = 1194684 := by decide
    simp only [parse_hex_in_range, hstrip, hhex, Bool.not_true, Bool.false_eq_true,
      if_false, hval]
    rw [if_neg hne]
    split_ifs with h
    · simp only [Bool.false_eq_true, false_iff]
      omega
    · simp only [true_iff]
      omega

/-- C5 amended: every built-in parser fails on the empty string — the
numeric parsers for every bounds, the IPv4 validators, and parse_bool —
while parse_string_option (which has no empty-argument guard) succeeds on
the empty string precisely when the option table contains the empty
string, and hence fails for every table without an empty entry. -/
theorem C5_amended_empty_argument :
    (∀ mn mx st, (parse_uint32_in_range (some []) mn mx st).1 = false) ∧
    (∀ mn mx st, (parse_uint64_in_range (some []) mn mx st).1 = false) ∧
    (∀ (mn mx : Int) st, (parse_int_in_range (some []) mn mx st).1 = false) ∧
    (∀ mn mx st, (parse_float_in_range (some []) mn mx st).1 = false) ∧
    (∀ mn mx st, (parse_hex_in_range (some []) mn mx st).1 = false) ∧
    parse_ip_address (some []) = false ∧
    parse_ip_address_with_netmask (some []) = false ∧
    (∀ st, (parse_bool (some []) st).1 = false) ∧
    (∀ options st, ((parse_string_option (some []) options st).1 = true ↔ [] ∈ options)) := by
  refine ⟨?_, ?_, ?_, ?_, ?_, rfl, rfl, ?_, ?_⟩
  · intro mn mx st; rfl
  · intro mn mx st; rfl
  · intro mn mx st; rfl
  · intro mn mx st; rfl
  · intro mn mx st; rfl
  · intro st; rfl
  · intro options st
    exact parse_string_option_succeeds_iff [] options st

/-- C6 amended: with vacuous bounds min > max, the four integer-domain
range parsers fail on every argument; parse_float_in_range likewise fails
on every argument whose strtof value is not NaN, but an argument parsing
to NaN (e.g. "nan") defeats the range check, both comparisons on NaN being
false. -/
theorem C6_amended_vacuous_range :
    (∀ arg mn mx st, mx < mn → (parse_uint32_in_range arg mn mx st).1 = false) ∧
    (∀ arg mn mx st, mx < mn → (parse_uint64_in_range arg mn mx st).1 = false) ∧
    (∀ arg (mn mx : Int) st, mx < mn → (parse_int_in_range arg mn mx st).1 = false) ∧
    (∀ arg mn mx st, mx < mn → (parse_hex_in_range arg mn mx st).1 = false) ∧
    (∀ s mn mx st, fltLt mx mn = true → (strtofModel s).1 ≠ CFloat.nan →
        (parse_float_in_range (some s) mn mx st).1 = false) := by
  refine ⟨?_, ?_, ?_, ?_, ?_⟩
  · intro arg mn mx st h
    cases arg with
    | none => rfl
    | some s =>
      simp only [parse_uint32_in_range]
      split_ifs with h1 h2 h3 <;> first | rfl | omega
  · intro arg mn mx st h
    cases arg with
    | none => rfl
    | some s =>
      simp only [parse_uint64_in_range]
      split_ifs with h1 h2 h3 <;> first | rfl | omega
  · intro arg mn mx st h
    cases arg with
    | none => rfl
    | some s =>
      simp only [parse_int_in_range]
      split_ifs with h1 h2 h3 <;> first | rfl | omega
  · intro arg mn mx st h
    cases arg with
    | none => rfl
    | some s =>
      simp only [parse_hex_in_range]
      split_ifs with h1 h2 h3 <;> first | rfl | omega
  · intro s mn mx st h hnan
    simp only [parse_float_in_range]
    split_ifs with h1 h2 h3
    · rfl
    · rfl
    · rfl
    · exact absurd (fltLt_vacuous mn mx (strtofModel s).1 h hnan) h3

/-- C6 witness: the amended statement applied at the concrete vacuous
bounds min = 1, max = 0 and the argument "5". -/
theorem C6_witness :
    (parse_uint32_in_range (some ['5']) 1 0 (some 2)).1 = false ∧
    (parse_uint64_in_range (some ['5']) 1 0 (some 2)).1 = false ∧
    (parse_int_in_range (some ['5']) 1 0 (some 2)).1 = false ∧
    (parse_hex_in_range (some ['5']) 1 0 (some 2)).1 = false ∧
    (parse_float_in_range (some ['5']) (CFloat.finite 1) (CFloat.finite 0)
        (some (CFloat.finite 2))).1 = false :=
  ⟨C6_amended_vacuous_range.1 (some ['5']) 1 0 (some 2) (by omega),
   C6_amended_vacuous_range.2.1 (some ['5']) 1 0 (some 2) (by omega),
   C6_amended_vacuous_range.2.2.1 (some ['5']) 1 0 (some 2) (by omega),
   C6_amended_vacuous_range.2.2.2.1 (some ['5']) 1 0 (some 2) (by omega),
   C6_amended_vacuous_range.2.2.2.2 ['5'] (CFloat.finite 1) (CFloat.finite 0)
     (some (CFloat.finite 2)) (by decide) (by decide)⟩

/-- C7: decimal format/parse round-trip.  For every value representable in
the parser's width and bounds containing it, parsing the canonical decimal
rendering succeeds and writes exactly that value (through a non-null
output pointer; a null pointer stays null). -/
theorem C7_decimal_round_trip :
    (∀ (v mn mx : Nat) (st : Option Nat), v < 2 ^ 32 → mn ≤ v → v ≤ mx →
        parse_uint32_in_range (some (natRender v)) mn mx st = (true, st.map (fun _ => v))) ∧
    (∀ (v mn mx : Nat) (st : Option Nat), v < 2 ^ 64 → mn ≤ v → v ≤ mx →
        parse_uint64_in_range (some (natRender v)) mn mx st = (true, st.map (fun _ => v))) ∧
    (∀ (v mn mx : Int) (st : Option Int), -(2 ^ 31) ≤ v → v < 2 ^ 31 → mn ≤ v → v ≤ mx →
        parse_int_in_range (some (intRender v)) mn mx st = (true, st.map (fun _ => v))) := by
  refine ⟨?_, ?_, ?_⟩
  · intro v mn mx st hv hmn hmx
    have h1 : natRender v ≠ [] := (natRender_spec v).1
    have hd : is_digits (natRender v) = true := is_digits_natRender v
    have hval : strtoulVal (natRender v) = v := by
      unfold strtoulVal
      rw [(natRender_spec v).2.2]
      omega
    simp only [parse_uint32_in_range, hd, hval, Bool.not_true]
    rw [if_neg h1, if_neg (by simp), if_neg (by omega)]
    simp only [Nat.mod_eq_of_lt hv]
  · intro v mn mx st hv hmn hmx
    have h1 : natRender v ≠ [] := (natRender_spec v).1
    have hd : is_digits (natRender v) = true := is_digits_natRender v
    have hval : strtoulVal (natRender v) = v := by
      unfold strtoulVal
      rw [(natRender_spec v).2.2]
      omega
    simp only [parse_uint64_in_range, hd, hval, Bool.not_true]
    rw [if_neg h1, if_neg (by simp), if_neg (by omega)]
  · intro v mn mx st hlo hhi hmn hmx
    by_cases hneg : v < 0
    · have hir : intRender v = '-' :: natRender v.natAbs := by
        simp [intRender, hneg]
      have hd : is_digits (natRender v.natAbs) = true := is_digits_natRender v.natAbs
      have hvn : ((v.natAbs : Int)) = -v := by omega
      have hvalid : is_valid_int (intRender v) = true := by
        rw [hir]
        simpa [is_valid_int] using hd
      have hval : strtolVal (intRender v) = v := by
        rw [hir]
        show (if ('-' : Char) = '-' then max (-(decValue (natRender v.natAbs) : Int)) (-(2 ^ 63))
          else if ('-' : Char) = '+' then min ((decValue (natRender v.natAbs) : Int)) (2 ^ 63 - 1)
          else min ((decValue ('-' :: natRender v.natAbs) : Int)) (2 ^ 63 - 1)) = v
        rw [if_pos rfl, (natRender_spec v.natAbs).2.2]
        omega
      have hwrap : wrap32 v = v := by
        unfold wrap32
        omega
      simp only [parse_int_in_range, hvalid, hval, Bool.not_true, hwrap]
      rw [if_neg (by rw [hir]; simp), if_neg (by simp), if_neg (by omega)]
    · have hir : intRender v = natRender v.toNat := by
        simp [intRender, hneg]
      have hd : is_digits (natRender v.toNat) = true := is_digits_natRender v.toNat
      have hvalid : is_valid_int (intRender v) = true := by
        rw [hir]
        exact is_valid_int_of_digits _ hd
      have hval : strtolVal (intRender v) = v := by
        rw [hir, strtolVal_digits _ hd, (natRender_spec v.toNat).2.2]
        omega
      have hwrap : wrap32 v = v := by
        unfold wrap32
        omega
      simp only [parse_int_in_range, hvalid, hval, Bool.not_true, hwrap]
      rw [if_neg (by rw [hir]; exact (natRender_spec v.toNat).1), if_neg (by simp),
        if_neg (by omega)]

/-- C7 witness: the round-trip applied at 255, 2^40 and -42 with concrete
bounds and output slots. -/
theorem C7_witness :
    parse_uint32_in_range (some (natRender 255)) 0 300 (some 9) = (true, some 255) ∧
    parse_uint64_in_range (some (natRender (2 ^ 40))) 0 (2 ^ 64 - 1) (some 9) =
      (true, some (2 ^ 40)) ∧
    parse_int_in_range (some (intRender (-42))) (-100) 100 (some 9) = (true, some (-42)) := by
  refine ⟨?_, ?_, ?_⟩
  · have h := C7_decimal_round_trip.1 255 0 300 (some 9) (by omega) (by omega) (by omega)
    simpa using h
  · have h := C7_decimal_round_trip.2.1 (2 ^ 40) 0 (2 ^ 64 - 1) (some 9) (by omega) (by omega)
      (by omega)
    simpa using h
  · have h := C7_decimal_round_trip.2.2 (-42) (-100) 100 (some 9) (by omega) (by omega)
      (by omega) (by omega)
    simpa using h

/-- C8: for a non-empty all-hex-digit string s, prefixing "0x" does not
change the behavior of parse_hex_in_range at all — same verdict and same
output state for every bounds and output slot (the prefixed form strips
"0x" down to s, and s itself can never start with a 0x marker since 'x'
is not a hex digit). -/
theorem C8_hex_0x_equivalence :
    ∀ (s : Str) (mn mx : Nat) (st : Option Nat), s ≠ [] → s.all isHexDigitC = true →
      parse_hex_in_range (some ('0' :: 'x' :: s)) mn mx st =
        parse_hex_in_range (some s) mn mx st := by
  intro s mn mx st h1 h2
  have hstrip2 : stripHexMark ('0' :: 'x' :: s) = s := by
    simp [stripHexMark]
  have hstrip : stripHexMark s = s := by
    match s with
    | [c] => rfl
    | c0 :: c1 :: rest =>
      have hc1 : isHexDigitC c1 = true := by
        simp [List.all_cons] at h2
        exact h2.2.1
      have hx : ¬(c0 = '0' ∧ (c1 = 'x' ∨ c1 = 'X')) := by
        rintro ⟨-, rfl | rfl⟩ <;> exact absurd hc1 (by decide)
      simp [stripHexMark, if_neg hx]
  simp only [parse_hex_in_range, hstrip, hstrip2]
  rw [if_neg (show ('0' :: 'x' :: s) ≠ [] by simp), if_neg h1]

/-- C8 witness: "0x1A" and "1A" behave identically; both succeed with
value 26 in the range [0, 100]. -/
theorem C8_witness :
    (['1', 'A'] : Str) ≠ [] ∧
    (['1', 'A'] : Str).all isHexDigitC = true ∧
    parse_hex_in_range (some ['0', 'x', '1', 'A']) 0 100 (some 0) =
      parse_hex_in_range (some ['1', 'A']) 0 100 (some 0) ∧
    parse_hex_in_range (some ['1', 'A']) 0 100 (some 0) = (true, some 26) :=
  ⟨by decide, by decide,
   C8_hex_0x_equivalence ['1', 'A'] 0 100 (some 0) (by decide) (by decide),
   by decide⟩

/-- C9 amended: parse_string_option succeeds iff some table entry equals
the argument (case-sensitively, byte for byte); on success, with k the
smallest matching index (characterised by the second conjunct: k is in
range, its entry equals the argument, all earlier entries differ), the
index stored through a non-null out pointer is k mod 2^32 — the loop
counter is truncated by the cast to 32-bit unsigned int — which equals k
itself whenever the table has at most 2^32 entries. -/
theorem C9_amended_first_match :
    ∀ (s : Str) (options : List Str) (st : Option Nat) (k : Nat),
      ((parse_string_option (some s) options st).1 = true ↔ s ∈ options) ∧
      (first_match_index s options = some k →
        k < options.length ∧ options.getD k [] = s ∧
        (∀ j, j < k → options.getD j [] ≠ s) ∧
        (parse_string_option (some s) options st).2 = st.map (fun _ => k % 2 ^ 32) ∧
        (options.length ≤ 2 ^ 32 → (parse_string_option (some s) options st).2 =
          st.map (fun _ => k))) := by
  intro s options st k
  refine ⟨parse_string_option_succeeds_iff s options st, ?_⟩
  intro hk
  obtain ⟨ha, hb, hc⟩ := first_match_index_spec s options k hk
  have hout : (parse_string_option (some s) options st).2 = st.map (fun _ => k % 2 ^ 32) := by
    show (optLoop s options 0 st).2 = _
    rw [optLoop_eq, hk]
    simp
  refine ⟨ha, hb, hc, hout, ?_⟩
  intro hlen
  rw [hout]
  have : k % 2 ^ 32 = k := Nat.mod_eq_of_lt (by omega)
  simp only [this]

/-- C9 witness: the options ["red", "green", "blue"] with argument
"green": success, first match at index 1, and index 1 is stored. -/
theorem C9_witness :
    first_match_index ['g', 'r', 'e', 'e', 'n']
        [['r', 'e', 'd'], ['g', 'r', 'e', 'e', 'n'], ['b', 'l', 'u', 'e']] = some 1 ∧
    ((parse_string_option (some ['g', 'r', 'e', 'e', 'n'])
        [['r', 'e', 'd'], ['g', 'r', 'e', 'e', 'n'], ['b', 'l', 'u', 'e']] (some 9)).1 = true ↔
      ['g', 'r', 'e', 'e', 'n'] ∈
        [['r', 'e', 'd'], ['g', 'r', 'e', 'e', 'n'], ['b', 'l', 'u', 'e']]) ∧
    (parse_string_option (some ['g', 'r', 'e', 'e', 'n'])
        [['r', 'e', 'd'], ['g', 'r', 'e', 'e', 'n'], ['b', 'l', 'u', 'e']] (some 9)).2 =
      some 1 := by
  refine ⟨by decide, (C9_amended_first_match _ _ (some 9) 1).1, ?_⟩
  have h := (C9_amended_first_match ['g', 'r', 'e', 'e', 'n']
    [['r', 'e', 'd'], ['g', 'r', 'e', 'e', 'n'], ['b', 'l', 'u', 'e']] (some 9) 1).2 (by decide)
  have h2 := h.2.2.2.2 (by decide)
  simpa using h2
